import Mathlib

/-!
Shallow embedding of jenkins_auto_build_enhanced.py (class
JenkinsAutoBuildEnhanced).  HTTP traffic is modelled by explicit
environments: a poll environment maps the index of a poll attempt to the
response the server gives on that attempt.  Logging and sleeping have no
observable effect on the returned values and are omitted; where a claim is
about the number of sleeps or polls, the loop is instrumented to count
them.  Python truthiness is modelled explicitly wherever the source tests
a JSON value with a bare if (None, 0, the empty string and the empty
collection are falsy).
-/

namespace Jenkins

/-- One build-status snapshot as consumed by wait_for_build_completion
(lines 403-432): the building flag (via status.get, default False) and the
result field (a JSON string or null, hence an Option).  The number and url
fields of the payload feed logging and a non-fatal warning only and are
omitted. -/
structure BuildStatus where
  building : Bool
  result : Option String
  deriving DecidableEq

/-- Python truthiness of the result field: null and the empty string are
falsy, every other string is truthy. -/
def resultTruthy : Option String → Bool
  | some r => r != ""
  | none => false

/-- A snapshot is terminal when building is falsy and result is truthy,
exactly the condition of line 415 of the source. -/
def isTerminalStatus : Option BuildStatus → Bool
  | some st => !st.building && resultTruthy st.result
  | none => false

/-- A snapshot on which line 416 takes the success branch: building falsy
and the result string equal to SUCCESS. -/
def isSuccessStatus : Option BuildStatus → Bool
  | some st => !st.building && (st.result == some ("SUCCESS"))
  | none => false

/-- The polling loop of wait_for_build_completion, lines 403-429.  Time is
modelled as advancing by interval seconds per iteration (the sleep at line
429); iteration k therefore starts at elapsed time k * interval and runs
while that is below the timeout, mirroring the wall-clock guard at line
403.  The env argument gives the snapshot returned by get_job_status on
the k-th iteration, with none standing for a failed fetch (non-200 or
exception), which the source merely logs before sleeping and retrying.
fuel is an upper bound on the iteration count used to make the recursion
structural; with a positive interval the deadline is reached before the
fuel runs out. -/
def waitLoop (env : Nat → Option BuildStatus) (timeout interval : Nat) : Nat → Nat → Bool
  | _, 0 => false
  | k, fuel+1 =>
    if k * interval < timeout then
      match env k with
      | some st =>
        if !st.building && resultTruthy st.result then st.result == some ("SUCCESS")
        else waitLoop env timeout interval (k+1) fuel
      | none => waitLoop env timeout interval (k+1) fuel
    else false

/-- wait_for_build_completion, lines 384-432, with the status fetches
abstracted into env.  timeout and interval are the configured
timeout_seconds and check_interval_seconds. -/
def wait_for_build_completion (env : Nat → Option BuildStatus) (timeout interval : Nat) : Bool :=
  waitLoop env timeout interval 0 (timeout + 1)

/-- Response of one poll of the queue item api/json endpoint inside
get_build_number_from_queue (lines 318-344): either an HTTP response
carrying the status code, the executable field (absent/falsy, or present
with an optional number field) and the truthiness of the cancelled field,
or an exception raised by the GET or the JSON parsing. -/
inductive QueueResp where
  | resp (status : Nat) (executable : Option (Option Int)) (cancelled : Bool)
  | exn
  deriving DecidableEq

/-- The for-loop of get_build_number_from_queue, lines 318-344, returning
the resolved build number (or none) together with the number of polls
performed.  Per iteration: an exception or a non-200 status breaks out of
the loop (returning None at line 347); on a 200 response a truthy
executable.number is returned at once, a truthy cancelled aborts with
None, and otherwise the loop sleeps 2 seconds and retries.  The source
runs attempts range(30); the a argument is the current attempt index and
fuel the remaining attempts. -/
def queuePollLoop (env : Nat → QueueResp) : Nat → Nat → Option Int × Nat
  | a, 0 => (none, a)
  | a, fuel+1 =>
    match env a with
    | .resp status ex cancelled =>
      if status = 200 then
        match ex with
        | some (some n) =>
          if n ≠ 0 then (some n, a + 1)
          else if cancelled then (none, a + 1) else queuePollLoop env (a + 1) fuel
        | some none => if cancelled then (none, a + 1) else queuePollLoop env (a + 1) fuel
        | none => if cancelled then (none, a + 1) else queuePollLoop env (a + 1) fuel
      else (none, a + 1)
    | .exn => (none, a + 1)

/-- A queue response on which the loop of get_build_number_from_queue
neither returns nor breaks: status 200, no truthy executable number, not
cancelled. -/
def queuePending : QueueResp → Bool
  | .resp status ex cancelled =>
      status == 200 &&
        (match ex with
          | some (some n) => n == 0
          | some none => true
          | none => true) &&
        !cancelled
  | .exn => false

/-- get_build_number_from_queue, lines 290-351.  location is the Location
response header (none when absent, in which case the source returns None
at line 306 without polling); the URL normalisation of lines 311-316 does
not affect the returned value and is omitted.  The result pairs the
resolved number (or none) with the number of queue polls performed. -/
def get_build_number_from_queue (location : Option String) (env : Nat → QueueResp) :
    Option Int × Nat :=
  match location with
  | none => (none, 0)
  | some _ => queuePollLoop env 0 30

/-- Outcome of the trigger POST of trigger_build, line 265: either a
response with a status code and an optional Location header, or an
exception raised during the POST or its surrounding processing. -/
structure TriggerResp where
  status : Nat
  location : Option String
  deriving DecidableEq

inductive PostResult where
  | resp (r : TriggerResp)
  | exn

/-- trigger_build, lines 228-288.  On status 200/201 the queue is
resolved; a truthy resolved number is returned, otherwise the sentinel -1
(line 279).  Any other status returns None (line 284), and an exception
anywhere in the body is caught and returns None (lines 286-288).  The
branch/parameters arguments only shape the POST body and are omitted. -/
def trigger_build (post : PostResult) (qenv : Nat → QueueResp) : Option Int :=
  match post with
  | .resp r =>
    if r.status = 200 ∨ r.status = 201 then
      match (get_build_number_from_queue r.location qenv).1 with
      | some n => if n ≠ 0 then some n else some (-1)
      | none => some (-1)
    else none
  | .exn => none

/-- Which status endpoint get_job_status queries. -/
inductive StatusEndpoint where
  | specific (n : Int)
  | lastBuild
  deriving DecidableEq

/-- The URL-selection branch of get_job_status, lines 367-370: a truthy
build number different from -1 selects the specific-build endpoint,
everything else (None, 0, -1) selects the lastBuild endpoint.  The actual
GET and JSON handling are part of the polling environments above. -/
def get_job_status_endpoint (buildNumber : Option Int) : StatusEndpoint :=
  match buildNumber with
  | some n => if n ≠ 0 ∧ n ≠ -1 then .specific n else .lastBuild
  | none => .lastBuild

/-- Outcome of one GET of poll_interface, line 458: a response with a
status code, or a transport exception. -/
inductive PollAttempt where
  | resp (status : Nat)
  | exn
  deriving DecidableEq

/-- The success test of one poll_interface attempt, line 462: the status
code equals the expected one; an exception never matches (the except arm
at lines 476-477 just advances to the next attempt). -/
def pollMatches (expected : Nat) : PollAttempt → Bool
  | .resp s => s == expected
  | .exn => false

/-- The for-loop of poll_interface, lines 454-484, instrumented to count
GET attempts and sleeps.  a is the 1-based attempt index of the source
range(1, max_attempts + 1); on a match the loop returns True at once
(line 470); otherwise it sleeps only when further attempts remain (lines
479-481).  Returns (result, attempts performed, sleeps performed). -/
def pollRun (env : Nat → PollAttempt) (expected maxAttempts : Nat) :
    Nat → Nat → Bool × Nat × Nat
  | _, 0 => (false, 0, 0)
  | a, fuel+1 =>
    if pollMatches expected (env a) then (true, 1, 0)
    else if a < maxAttempts then
      match pollRun env expected maxAttempts (a + 1) fuel with
      | (b, cnt, sl) => (b, cnt + 1, sl + 1)
    else (false, 1, 0)

/-- poll_interface, lines 434-484, with the GETs abstracted into env
(indexed by the 1-based attempt number).  expected and maxAttempts are the
configured expected_status_code and max_attempts. -/
def poll_interface (env : Nat → PollAttempt) (expected maxAttempts : Nat) :
    Bool × Nat × Nat :=
  pollRun env expected maxAttempts 1 maxAttempts

/-- A job descriptor as produced by get_jobs_list. -/
structure JobItem where
  name : String
  description : String
  parameters : List (String × String)
  deriving DecidableEq

/-- One entry of the configured jobs array, lines 497-509: a JSON dict
(whose name, description keys may be absent), a plain string, or a value
of any other type (which the source skips). -/
inductive JobConfigEntry where
  | dict (name : Option String) (description : Option String)
      (parameters : List (String × String))
  | str (s : String)
  | other
  deriving DecidableEq

/-- The loop of lines 497-509: dict entries need a name key (its absence
skips the entry, as isinstance passes but the membership test fails);
description defaults to the name, parameters to the empty map; a string
entry becomes a job with itself as description and no parameters. -/
def jobsFromEntries : List JobConfigEntry → List JobItem
  | [] => []
  | .dict nm descr params :: rest =>
    match nm with
    | some n => { name := n, description := descr.getD n, parameters := params }
        :: jobsFromEntries rest
    | none => jobsFromEntries rest
  | .str s :: rest => { name := s, description := s, parameters := [] } :: jobsFromEntries rest
  | .other :: rest => jobsFromEntries rest

/-- The slice of the configuration read by get_jobs_list: the jobs key
(none when absent; some [] when present but empty, which is falsy) and the
first_job / second_job keys (none when absent; config.get only falls back
to the default when the key is missing). -/
structure JobsConfig where
  jobs : Option (List JobConfigEntry)
  firstJob : Option String
  secondJob : Option String

/-- The backward-compatibility branch of get_jobs_list, lines 511-526:
first_job (default tdms-stock-boot) always yields a job; second_job
(default tdms-stock-boot-slave-rights-collection) yields a second job only
when truthy (non-empty) and different from first_job. -/
def backCompatJobs (c : JobsConfig) : List JobItem :=
  let firstJob := (c.firstJob).getD ("tdms-stock-boot")
  let secondJob := (c.secondJob).getD ("tdms-stock-boot-slave-rights-collection")
  if secondJob ≠ "" ∧ secondJob ≠ firstJob then
    [ { name := firstJob, description := "第一个任务", parameters := [] },
      { name := secondJob, description := "第二个任务", parameters := [] } ]
  else
    [ { name := firstJob, description := "第一个任务", parameters := [] } ]

/-- get_jobs_list, lines 486-528: a present and truthy (non-empty) jobs
array takes priority, otherwise the backward-compatibility pair is used. -/
def get_jobs_list (c : JobsConfig) : List JobItem :=
  match c.jobs with
  | some [] => backCompatJobs c
  | some (e :: rest) => jobsFromEntries (e :: rest)
  | none => backCompatJobs c

/-- Environment of one workflow run: the result of trigger_build for the
job at index i (none = trigger failed), the result of
wait_for_build_completion for the job at index i, and the result of
poll_interface (which the workflow invokes at most once). -/
structure WorkflowEnv where
  trigger : Nat → Option Int
  wait : Nat → Bool
  poll : Bool

/-- Observable state of run_build_workflow: the tracked build handle
(instance fields current_job / current_build_number, lines 41-42 and
581-591) plus instrumentation recording which job indices had their
trigger attempted and after which job indices poll_interface ran. -/
structure WfState where
  currentJob : Option String
  currentBuildNumber : Option Int
  triggered : List Nat
  polls : List Nat
  deriving DecidableEq

/-- State at entry of run_build_workflow: the handle starts clear
(constructor lines 41-42) and nothing has been triggered or polled. -/
def initWfState : WfState :=
  { currentJob := none, currentBuildNumber := none, triggered := [], polls := [] }

/-- Instrumentation: the trigger of job i was attempted (line 575). -/
def recordTrigger (st : WfState) (i : Nat) : WfState :=
  { st with triggered := st.triggered ++ [i] }

/-- Lines 581-582: set the tracked build handle. -/
def setHandle (st : WfState) (jobName : String) (bn : Int) : WfState :=
  { st with currentJob := some jobName, currentBuildNumber := some bn }

/-- Lines 590-591: clear the tracked build handle. -/
def clearHandle (st : WfState) : WfState :=
  { st with currentJob := none, currentBuildNumber := none }

/-- Instrumentation: poll_interface was invoked after job i (line 603). -/
def recordPoll (st : WfState) (i : Nat) : WfState :=
  { st with polls := st.polls ++ [i] }

/-- The job loop of run_build_workflow, lines 566-617.  Per job at index
i: trigger (None aborts with failure, lines 576-578); set the handle
(581-582); wait for completion (a failure aborts at 585-587 with the
handle still set); clear the handle (590-591); when a next job exists and
i = 0 and polling is enabled, run poll_interface (600-605), whose failure
aborts; the inter-job countdown (608-616) has no observable effect and is
omitted. -/
def runJobs (env : WorkflowEnv) (ep : Bool) : List JobItem → Nat → WfState → Bool × WfState
  | [], _, st => (true, st)
  | job :: rest, i, st =>
    match env.trigger i with
    | none => (false, recordTrigger st i)
    | some bn =>
      if env.wait i = true then
        if 0 < rest.length ∧ i = 0 ∧ ep = true then
          if env.poll = true then
            runJobs env ep rest (i + 1)
              (recordPoll (clearHandle (setHandle (recordTrigger st i) job.name bn)) i)
          else
            (false, recordPoll (clearHandle (setHandle (recordTrigger st i) job.name bn)) i)
        else
          runJobs env ep rest (i + 1) (clearHandle (setHandle (recordTrigger st i) job.name bn))
      else (false, setHandle (recordTrigger st i) job.name bn)

/-- run_build_workflow, lines 530-621, over an already resolved jobs list
(the source obtains it from get_jobs_list at line 543).  An empty list
returns failure at once (lines 545-547). -/
def run_build_workflow (env : WorkflowEnv) (ep : Bool) (jobs : List JobItem) :
    Bool × WfState :=
  match jobs with
  | [] => (false, initWfState)
  | j :: rest => runJobs env ep (j :: rest) 0 initWfState

/-! ### Queue resolution: counting lemmas -/

theorem queuePollLoop_step_cases (env : Nat → QueueResp) (a f : Nat) :
    (queuePollLoop env a (f + 1)).2 = a + 1 ∨
      queuePollLoop env a (f + 1) = queuePollLoop env (a + 1) f := by
  simp only [queuePollLoop]
  cases env a with
  | exn => left; rfl
  | resp status ex cancelled =>
    by_cases hs : status = 200
    · simp only [hs, if_true]
      rcases ex with _ | (_ | n)
      · by_cases hc : cancelled
        · simp [hc]
        · simp [hc]
      · by_cases hc : cancelled
        · simp [hc]
        · simp [hc]
      · by_cases hn : n = 0
        · subst hn
          by_cases hc : cancelled
          · simp [hc]
          · simp [hc]
        · simp [hn]
    · simp [hs]

theorem queuePollLoop_count_le (env : Nat → QueueResp) :
    ∀ fuel a, (queuePollLoop env a fuel).2 ≤ a + fuel := by
  intro fuel
  induction fuel with
  | zero => intro a; simp [queuePollLoop]
  | succ f ih =>
    intro a
    rcases queuePollLoop_step_cases env a f with h | h
    · rw [h]; omega
    · rw [h]
      have := ih (a + 1)
      omega

theorem queuePending_step (env : Nat → QueueResp) (a fuel : Nat)
    (hp : queuePending (env a) = true) :
    queuePollLoop env a (fuel + 1) = queuePollLoop env (a + 1) fuel := by
  cases henva : env a with
  | exn => rw [henva] at hp; simp [queuePending] at hp
  | resp s ex cc =>
    rw [henva] at hp
    rcases ex with _ | (_ | m) <;>
      simp only [queuePending, Bool.and_eq_true, beq_iff_eq, Bool.not_eq_true'] at hp
    · obtain ⟨⟨hs, -⟩, hcc⟩ := hp
      subst hs; subst hcc
      simp [queuePollLoop, henva]
    · obtain ⟨⟨hs, -⟩, hcc⟩ := hp
      subst hs; subst hcc
      simp [queuePollLoop, henva]
    · obtain ⟨⟨hs, hm⟩, hcc⟩ := hp
      subst hs; subst hcc; subst hm
      simp [queuePollLoop, henva]

theorem queuePollLoop_first_number (env : Nat → QueueResp) :
    ∀ fuel a i n c, a ≤ i → i < a + fuel →
      (∀ j, j < i → a ≤ j → queuePending (env j) = true) →
      env i = QueueResp.resp 200 (some (some n)) c → n ≠ 0 →
      queuePollLoop env a fuel = (some n, i + 1) := by
  intro fuel
  induction fuel with
  | zero => intro a i n c hai hif _ _ _; omega
  | succ f ih =>
    intro a i n c hai hif hpend henv hn
    rcases Nat.eq_or_lt_of_le hai with heq | hlt
    · subst heq
      simp [queuePollLoop, henv, hn]
    · rw [queuePending_step env a f (hpend a hlt (le_refl a))]
      exact ih (a + 1) i n c hlt (by omega)
        (fun j hj haj => hpend j hj (by omega)) henv hn

theorem queuePollLoop_pending_exhaust (env : Nat → QueueResp) :
    ∀ fuel a, (∀ j, j < a + fuel → a ≤ j → queuePending (env j) = true) →
      queuePollLoop env a fuel = (none, a + fuel) := by
  intro fuel
  induction fuel with
  | zero => intro a _; simp [queuePollLoop]
  | succ f ih =>
    intro a h
    rw [queuePending_step env a f (h a (by omega) (le_refl a))]
    rw [ih (a + 1) (fun j hj haj => h j (by omega) (by omega))]
    have he : a + 1 + f = a + (f + 1) := by omega
    rw [he]

/-- Claim C3: queue resolution polls the queue-item endpoint at most 30
times; on the first poll whose 200 response carries a truthy
executable.number it returns that number after exactly that many polls;
and 30 polls that all return 200 without a number and without cancellation
yield None after exactly 30 polls. -/
theorem c3_queue_resolution (env : Nat → QueueResp) (loc : String) (i : Nat) (n : Int)
    (c : Bool) (hi : i < 30)
    (hpend : ∀ j, j < i → queuePending (env j) = true)
    (henv : env i = QueueResp.resp 200 (some (some n)) c) (hn : n ≠ 0) :
    (∀ env2 : Nat → QueueResp, ∀ loc2 : String,
        (get_build_number_from_queue (some loc2) env2).2 ≤ 30) ∧
    get_build_number_from_queue (some loc) env = (some n, i + 1) ∧
    (∀ env2 : Nat → QueueResp,
        (∀ j, j < 30 → queuePending (env2 j) = true) →
        get_build_number_from_queue (some loc) env2 = (none, 30)) := by
  refine ⟨?_, ?_, ?_⟩
  · intro env2 loc2
    simpa [get_build_number_from_queue] using queuePollLoop_count_le env2 30 0
  · simpa [get_build_number_from_queue] using
      queuePollLoop_first_number env 30 0 i n c (Nat.zero_le i) (by omega)
        (fun j hj _ => hpend j hj) henv hn
  · intro env2 h2
    simpa [get_build_number_from_queue] using
      queuePollLoop_pending_exhaust env2 30 0 (fun j hj _ => h2 j (by omega))

/-- Queue environment that pends twice and resolves to 42 on the third
poll, as in the spec example. -/
def c3Env : Nat → QueueResp := fun j =>
  if j < 2 then QueueResp.resp 200 none false else QueueResp.resp 200 (some (some 42)) false

theorem c3_witness :
    (∀ env2 : Nat → QueueResp, ∀ loc2 : String,
        (get_build_number_from_queue (some loc2) env2).2 ≤ 30) ∧
    get_build_number_from_queue (some ("q")) c3Env = (some 42, 3) ∧
    (∀ env2 : Nat → QueueResp,
        (∀ j, j < 30 → queuePending (env2 j) = true) →
        get_build_number_from_queue (some ("q")) env2 = (none, 30)) :=
  c3_queue_resolution c3Env ("q") 2 42 false (by omega) (by decide) (by decide) (by decide)

/-! ### Build-completion poller -/

theorem isSuccess_imp_isTerminal (o : Option BuildStatus)
    (h : isSuccessStatus o = true) : isTerminalStatus o = true := by
  cases o with
  | none => simp [isSuccessStatus] at h
  | some st =>
    simp only [isSuccessStatus, Bool.and_eq_true, beq_iff_eq] at h
    obtain ⟨hb, hr⟩ := h
    simp only [isTerminalStatus, Bool.and_eq_true]
    refine ⟨hb, ?_⟩
    rw [hr]
    decide

theorem successAt_shift (env : Nat → Option BuildStatus) (timeout interval k : Nat)
    (hterm : isTerminalStatus (env k) = false) :
    (∃ m, k + 1 ≤ m ∧ m * interval < timeout ∧
        (∀ j, j < m → k + 1 ≤ j → isTerminalStatus (env j) = false) ∧
        isSuccessStatus (env m) = true) ↔
    (∃ m, k ≤ m ∧ m * interval < timeout ∧
        (∀ j, j < m → k ≤ j → isTerminalStatus (env j) = false) ∧
        isSuccessStatus (env m) = true) := by
  constructor
  · rintro ⟨m, h1, h2, h3, h4⟩
    refine ⟨m, by omega, h2, ?_, h4⟩
    intro j hj hkj
    rcases Nat.eq_or_lt_of_le hkj with heq | hlt
    · rw [← heq]; exact hterm
    · exact h3 j hj (by omega)
  · rintro ⟨m, h1, h2, h3, h4⟩
    have hkm : k ≠ m := by
      rintro rfl
      have := isSuccess_imp_isTerminal _ h4
      rw [hterm] at this
      exact Bool.noConfusion this
    exact ⟨m, by omega, h2, fun j hj hkj => h3 j hj (by omega), h4⟩

theorem waitLoop_deadline (env : Nat → Option BuildStatus) (timeout interval k f : Nat)
    (h : ¬ k * interval < timeout) :
    waitLoop env timeout interval k (f + 1) = false := by
  simp [waitLoop, h]

theorem waitLoop_nonterminal (env : Nat → Option BuildStatus) (timeout interval k f : Nat)
    (hkt : k * interval < timeout) (hterm : isTerminalStatus (env k) = false) :
    waitLoop env timeout interval k (f + 1) = waitLoop env timeout interval (k + 1) f := by
  cases henv : env k with
  | none => simp [waitLoop, hkt, henv]
  | some st =>
    have hb : (!st.building && resultTruthy st.result) = false := by
      simpa [isTerminalStatus, henv] using hterm
    simp [waitLoop, hkt, henv, hb]

theorem waitLoop_terminal (env : Nat → Option BuildStatus) (timeout interval k f : Nat)
    (hkt : k * interval < timeout) (st : BuildStatus) (henv : env k = some st)
    (hb : (!st.building && resultTruthy st.result) = true) :
    waitLoop env timeout interval k (f + 1) = (st.result == some ("SUCCESS")) := by
  simp [waitLoop, hkt, henv, hb]

theorem waitLoop_true_iff (env : Nat → Option BuildStatus) (timeout interval : Nat) :
    ∀ fuel k, timeout ≤ (k + fuel) * interval →
      (waitLoop env timeout interval k fuel = true ↔
        ∃ m, k ≤ m ∧ m * interval < timeout ∧
          (∀ j, j < m → k ≤ j → isTerminalStatus (env j) = false) ∧
          isSuccessStatus (env m) = true) := by
  intro fuel
  induction fuel with
  | zero =>
    intro k hk
    simp only [Nat.add_zero] at hk
    simp only [waitLoop, Bool.false_eq_true, false_iff]
    rintro ⟨m, h1, h2, -, -⟩
    have : k * interval ≤ m * interval := Nat.mul_le_mul_right interval h1
    omega
  | succ f ih =>
    intro k hk
    have hk2 : timeout ≤ (k + 1 + f) * interval := by
      have he : k + 1 + f = k + (f + 1) := by omega
      rw [he]; exact hk
    by_cases hkt : k * interval < timeout
    · cases hterm : isTerminalStatus (env k) with
      | false =>
        rw [waitLoop_nonterminal env timeout interval k f hkt hterm, ih (k + 1) hk2]
        exact successAt_shift env timeout interval k hterm
      | true =>
        obtain ⟨st, henv, hb⟩ :
            ∃ st, env k = some st ∧ (!st.building && resultTruthy st.result) = true := by
          cases henv : env k with
          | none =>
            rw [henv] at hterm
            exact absurd hterm (by simp [isTerminalStatus])
          | some st =>
            refine ⟨st, rfl, ?_⟩
            simpa [isTerminalStatus, henv] using hterm
        rw [waitLoop_terminal env timeout interval k f hkt st henv hb]
        by_cases hres : (st.result == some ("SUCCESS")) = true
        · rw [hres]
          simp only [true_iff]
          refine ⟨k, le_refl k, hkt, fun j hj hkj => by omega, ?_⟩
          simp only [isSuccessStatus, henv, Bool.and_eq_true]
          exact ⟨((Bool.and_eq_true _ _).mp hb).1, hres⟩
        · rw [Bool.not_eq_true] at hres
          rw [hres]
          simp only [Bool.false_eq_true, false_iff]
          rintro ⟨m, h1, h2, h3, h4⟩
          rcases Nat.eq_or_lt_of_le h1 with heq | hlt
          · rw [← heq] at h4
            simp only [isSuccessStatus, henv, Bool.and_eq_true] at h4
            rw [h4.2] at hres
            exact Bool.noConfusion hres
          · have hcontra := h3 k hlt (le_refl k)
            rw [hterm] at hcontra
            exact Bool.noConfusion hcontra
    · rw [waitLoop_deadline env timeout interval k f hkt]
      simp only [Bool.false_eq_true, false_iff]
      rintro ⟨m, h1, h2, -, -⟩
      have : k * interval ≤ m * interval := Nat.mul_le_mul_right interval h1
      omega

/-- Claim C4: the build-completion poller returns true iff, before the
wall-clock deadline, it observes a first terminal snapshot and that
snapshot has building false and result SUCCESS; a first terminal snapshot
with another result yields false, and so does exhausting the deadline with
no terminal snapshot.  Iteration k runs at elapsed time k * interval. -/
theorem c4_wait_for_completion (env : Nat → Option BuildStatus) (timeout interval : Nat)
    (hint : 0 < interval) :
    (wait_for_build_completion env timeout interval = true ↔
      ∃ k, k * interval < timeout ∧
        (∀ j, j < k → isTerminalStatus (env j) = false) ∧
        isSuccessStatus (env k) = true) ∧
    (∀ k, k * interval < timeout → (∀ j, j < k → isTerminalStatus (env j) = false) →
      isTerminalStatus (env k) = true → isSuccessStatus (env k) = false →
      wait_for_build_completion env timeout interval = false) ∧
    ((∀ k, k * interval < timeout → isTerminalStatus (env k) = false) →
      wait_for_build_completion env timeout interval = false) := by
  have hfuel : timeout ≤ (0 + (timeout + 1)) * interval := by
    rw [Nat.zero_add]
    have h1 : timeout + 1 ≤ (timeout + 1) * interval :=
      Nat.le_mul_of_pos_right (timeout + 1) hint
    omega
  have hiff := waitLoop_true_iff env timeout interval (timeout + 1) 0 hfuel
  have hiff2 : wait_for_build_completion env timeout interval = true ↔
      ∃ k, k * interval < timeout ∧
        (∀ j, j < k → isTerminalStatus (env j) = false) ∧
        isSuccessStatus (env k) = true := by
    rw [wait_for_build_completion, hiff]
    constructor
    · rintro ⟨m, -, h2, h3, h4⟩
      exact ⟨m, h2, fun j hj => h3 j hj (Nat.zero_le j), h4⟩
    · rintro ⟨m, h2, h3, h4⟩
      exact ⟨m, Nat.zero_le m, h2, fun j hj _ => h3 j hj, h4⟩
  refine ⟨hiff2, ?_, ?_⟩
  · intro k hk hpre hterm hns
    cases hwc : wait_for_build_completion env timeout interval with
    | false => rfl
    | true =>
      obtain ⟨m, hm1, hm2, hm3⟩ := hiff2.mp hwc
      rcases Nat.lt_trichotomy m k with h | h | h
      · have := hpre m h
        rw [isSuccess_imp_isTerminal _ hm3] at this
        exact Bool.noConfusion this
      · rw [h] at hm3
        rw [hm3] at hns
        exact Bool.noConfusion hns
      · have := hm2 k h
        rw [hterm] at this
        exact Bool.noConfusion this
  · intro h
    cases hwc : wait_for_build_completion env timeout interval with
    | false => rfl
    | true =>
      obtain ⟨m, hm1, -, hm3⟩ := hiff2.mp hwc
      have := h m hm1
      rw [isSuccess_imp_isTerminal _ hm3] at this
      exact Bool.noConfusion this

/-- Status environment that is building for three polls and reports a
SUCCESS terminal snapshot on the fourth, as in the spec example. -/
def c4Env : Nat → Option BuildStatus := fun k =>
  if k < 3 then some { building := true, result := none }
  else some { building := false, result := some ("SUCCESS") }

theorem c4_witness :
    (0 < 2 ∧
      (wait_for_build_completion c4Env 10 2 = true ↔
        ∃ k, k * 2 < 10 ∧
          (∀ j, j < k → isTerminalStatus (c4Env j) = false) ∧
          isSuccessStatus (c4Env k) = true) ∧
      (∀ k, k * 2 < 10 → (∀ j, j < k → isTerminalStatus (c4Env j) = false) →
        isTerminalStatus (c4Env k) = true → isSuccessStatus (c4Env k) = false →
        wait_for_build_completion c4Env 10 2 = false) ∧
      ((∀ k, k * 2 < 10 → isTerminalStatus (c4Env k) = false) →
        wait_for_build_completion c4Env 10 2 = false)) :=
  ⟨by decide, c4_wait_for_completion c4Env 10 2 (by decide)⟩

/-! ### External endpoint poller -/

theorem pollRun_count_le (env : Nat → PollAttempt) (expected maxA : Nat) :
    ∀ fuel a, (pollRun env expected maxA a fuel).2.1 ≤ fuel := by
  intro fuel
  induction fuel with
  | zero => intro a; simp [pollRun]
  | succ f ih =>
    intro a
    simp only [pollRun]
    by_cases hm : pollMatches expected (env a) = true
    · simp [hm]
    · rw [Bool.not_eq_true] at hm
      simp only [hm, Bool.false_eq_true, if_false]
      by_cases ha : a < maxA
      · rw [if_pos ha]
        have := ih (a + 1)
        rcases hres : pollRun env expected maxA (a + 1) f with ⟨b, cnt, sl⟩
        rw [hres] at this
        simpa using Nat.add_le_add_right this 1
      · rw [if_neg ha]
        simp

theorem pollRun_first_match (env : Nat → PollAttempt) (expected maxA : Nat) :
    ∀ fuel a i, a ≤ i → i ≤ maxA → i < a + fuel →
      (∀ j, j < i → a ≤ j → pollMatches expected (env j) = false) →
      pollMatches expected (env i) = true →
      pollRun env expected maxA a fuel = (true, i - a + 1, i - a) := by
  intro fuel
  induction fuel with
  | zero => intro a i hai hiM hif _ _; omega
  | succ f ih =>
    intro a i hai hiM hif hpre hm
    rcases Nat.eq_or_lt_of_le hai with heq | hlt
    · subst heq
      simp [pollRun, hm]
    · have hnm := hpre a hlt (le_refl a)
      have haM : a < maxA := by omega
      simp only [pollRun, hnm, Bool.false_eq_true, if_false, if_pos haM]
      rw [ih (a + 1) i hlt hiM (by omega) (fun j hj haj => hpre j hj (by omega)) hm]
      have e1 : i - (a + 1) + 1 + 1 = i - a + 1 := by omega
      have e2 : i - (a + 1) + 1 = i - a := by omega
      rw [e1, e2]

theorem pollRun_exhaust (env : Nat → PollAttempt) (expected maxA : Nat) :
    ∀ fuel a, a + fuel = maxA + 1 → a ≤ maxA →
      (∀ j, a ≤ j → j ≤ maxA → pollMatches expected (env j) = false) →
      pollRun env expected maxA a fuel = (false, maxA - a + 1, maxA - a) := by
  intro fuel
  induction fuel with
  | zero => intro a hfa haM _; omega
  | succ f ih =>
    intro a hfa haM hall
    have hnm := hall a (le_refl a) haM
    simp only [pollRun, hnm, Bool.false_eq_true, if_false]
    by_cases ha : a < maxA
    · rw [if_pos ha]
      rw [ih (a + 1) (by omega) (by omega) (fun j h1 h2 => hall j (by omega) h2)]
      have e1 : maxA - (a + 1) + 1 + 1 = maxA - a + 1 := by omega
      have e2 : maxA - (a + 1) + 1 = maxA - a := by omega
      rw [e1, e2]
    · rw [if_neg ha]
      have he : a = maxA := by omega
      subst he
      simp

/-- Claim C5: poll_interface performs at most maxAttempts GET attempts;
the first attempt whose status matches expectedStatus (transport
exceptions never match, exactly like wrong statuses) returns true at once,
after exactly that many attempts with one sleep after each non-final
failed attempt; and when no attempt in 1..maxAttempts matches it returns
false after exactly maxAttempts attempts and maxAttempts - 1 sleeps (the
sleep after the final attempt is skipped). -/
theorem c5_poll_interface (env : Nat → PollAttempt) (expected maxA i : Nat)
    (h1 : 1 ≤ i) (hiM : i ≤ maxA)
    (hpre : ∀ j, j < i → 1 ≤ j → pollMatches expected (env j) = false)
    (hm : pollMatches expected (env i) = true) :
    (∀ env2 : Nat → PollAttempt, (poll_interface env2 expected maxA).2.1 ≤ maxA) ∧
    poll_interface env expected maxA = (true, i, i - 1) ∧
    (∀ env2 : Nat → PollAttempt, 1 ≤ maxA →
      (∀ j, 1 ≤ j → j ≤ maxA → pollMatches expected (env2 j) = false) →
      poll_interface env2 expected maxA = (false, maxA, maxA - 1)) := by
  refine ⟨?_, ?_, ?_⟩
  · intro env2
    exact pollRun_count_le env2 expected maxA maxA 1
  · rw [poll_interface,
      pollRun_first_match env expected maxA maxA 1 i h1 hiM (by omega) hpre hm]
    have e1 : i - 1 + 1 = i := by omega
    rw [e1]
  · intro env2 hM hall
    rw [poll_interface,
      pollRun_exhaust env2 expected maxA maxA 1 (by omega) hM
        (fun j h1 h2 => hall j h1 h2)]
    have e1 : maxA - 1 + 1 = maxA := by omega
    rw [e1]

/-- Poll environment returning 500 on the first two attempts and 200 from
the third on, as in the spec example. -/
def c5Env : Nat → PollAttempt := fun j =>
  if j < 3 then PollAttempt.resp 500 else PollAttempt.resp 200

theorem c5_witness :
    (∀ env2 : Nat → PollAttempt, (poll_interface env2 200 60).2.1 ≤ 60) ∧
    poll_interface c5Env 200 60 = (true, 3, 2) ∧
    (∀ env2 : Nat → PollAttempt, 1 ≤ 60 →
      (∀ j, 1 ≤ j → j ≤ 60 → pollMatches 200 (env2 j) = false) →
      poll_interface env2 200 60 = (false, 60, 59)) :=
  c5_poll_interface c5Env 200 60 3 (by omega) (by omega)
    (fun j hj h1 => by
      have : j = 1 ∨ j = 2 := by omega
      rcases this with rfl | rfl <;> decide)
    (by decide)

/-! ### Build trigger, sentinel and status-endpoint routing -/

/-- Claim C6: a trigger POST that succeeds (200 or 201) but whose queue
resolution cannot determine a build number returns the sentinel -1, and
get_job_status routes the sentinel to the lastBuild endpoint.  The
hypothesis covers every cause of failed resolution at once: absent
Location header, exhausted queue polling, non-200 queue response, or a
transport failure while polling. -/
theorem c6_trigger_sentinel (qenv : Nat → QueueResp) (s : Nat) (loc : Option String)
    (hs : s = 200 ∨ s = 201)
    (hq : (get_build_number_from_queue loc qenv).1 = none) :
    trigger_build (PostResult.resp { status := s, location := loc }) qenv = some (-1) ∧
    get_job_status_endpoint (some (-1)) = StatusEndpoint.lastBuild := by
  constructor
  · simp only [trigger_build]
    rcases hs with rfl | rfl <;> simp [hq]
  · simp [get_job_status_endpoint]

theorem c6_witness :
    trigger_build (PostResult.resp { status := 201, location := none })
        (fun _ => QueueResp.exn) = some (-1) ∧
    get_job_status_endpoint (some (-1)) = StatusEndpoint.lastBuild :=
  c6_trigger_sentinel (fun _ => QueueResp.exn) 201 none (Or.inr rfl) rfl

/-- Claim C8: get_job_status (and therefore wait_for_build_completion,
which forwards its build_number argument unchanged to get_job_status on
every iteration) routes None, 0 and -1 to the lastBuild endpoint, and
every other number to the specific-build endpoint. -/
theorem c8_status_endpoint_fallback :
    get_job_status_endpoint none = StatusEndpoint.lastBuild ∧
    get_job_status_endpoint (some 0) = StatusEndpoint.lastBuild ∧
    get_job_status_endpoint (some (-1)) = StatusEndpoint.lastBuild ∧
    (∀ n : Int, n ≠ 0 → n ≠ -1 →
      get_job_status_endpoint (some n) = StatusEndpoint.specific n) := by
  refine ⟨rfl, by simp [get_job_status_endpoint], by simp [get_job_status_endpoint], ?_⟩
  intro n h0 h1
  simp [get_job_status_endpoint, h0, h1]

theorem c8_witness :
    (5 : Int) ≠ 0 ∧ get_job_status_endpoint (some 5) = StatusEndpoint.specific 5 :=
  ⟨by decide, c8_status_endpoint_fallback.2.2.2 5 (by decide) (by decide)⟩

/-- Claim C10: trigger_build never propagates an exception.  An exception
during the POST (or its surrounding processing) is caught by the outer
handler and yields None; an exception during queue polling is caught
inside get_build_number_from_queue, so a successful POST still yields the
sentinel -1 rather than None or a propagated exception. -/
theorem c10_trigger_no_exception (qenv : Nat → QueueResp) (s : Nat) (loc : String)
    (hs : s = 200 ∨ s = 201) (hq : qenv 0 = QueueResp.exn) :
    trigger_build PostResult.exn qenv = none ∧
    trigger_build (PostResult.resp { status := s, location := some loc }) qenv
      = some (-1) := by
  constructor
  · rfl
  · have hres : (get_build_number_from_queue (some loc) qenv).1 = none := by
      have h30 : (30 : Nat) = 29 + 1 := rfl
      simp only [get_build_number_from_queue, h30, queuePollLoop, hq]
    simp only [trigger_build]
    rcases hs with rfl | rfl <;> simp [hres]

theorem c10_witness :
    trigger_build PostResult.exn (fun _ => QueueResp.exn) = none ∧
    trigger_build (PostResult.resp { status := 200, location := some ("q") })
        (fun _ => QueueResp.exn) = some (-1) :=
  c10_trigger_no_exception (fun _ => QueueResp.exn) 200 ("q") (Or.inl rfl) rfl

/-! ### Jobs list backward compatibility -/

/-- Claim C9: without a non-empty jobs array, get_jobs_list builds a
non-empty list of one or two jobs from first_job and second_job (with the
built-in defaults when the keys are absent), every entry carrying empty
parameters; the second entry appears exactly when second_job is truthy
(non-empty) and different from first_job. -/
theorem c9_jobs_list_backcompat (c : JobsConfig)
    (h : c.jobs = none ∨ c.jobs = some []) :
    get_jobs_list c ≠ [] ∧
    (∀ j ∈ get_jobs_list c, j.parameters = []) ∧
    (((c.secondJob).getD ("tdms-stock-boot-slave-rights-collection") ≠ "" ∧
        (c.secondJob).getD ("tdms-stock-boot-slave-rights-collection") ≠
          (c.firstJob).getD ("tdms-stock-boot")) →
      get_jobs_list c =
        [ { name := (c.firstJob).getD ("tdms-stock-boot"),
            description := "第一个任务", parameters := [] },
          { name := (c.secondJob).getD ("tdms-stock-boot-slave-rights-collection"),
            description := "第二个任务", parameters := [] } ]) ∧
    (¬((c.secondJob).getD ("tdms-stock-boot-slave-rights-collection") ≠ "" ∧
        (c.secondJob).getD ("tdms-stock-boot-slave-rights-collection") ≠
          (c.firstJob).getD ("tdms-stock-boot")) →
      get_jobs_list c =
        [ { name := (c.firstJob).getD ("tdms-stock-boot"),
            description := "第一个任务", parameters := [] } ]) := by
  have hg : get_jobs_list c = backCompatJobs c := by
    rcases h with h | h <;> simp [get_jobs_list, h]
  by_cases hc : (c.secondJob).getD ("tdms-stock-boot-slave-rights-collection") ≠ "" ∧
      (c.secondJob).getD ("tdms-stock-boot-slave-rights-collection") ≠
        (c.firstJob).getD ("tdms-stock-boot")
  · have hb : get_jobs_list c =
        [ { name := (c.firstJob).getD ("tdms-stock-boot"),
            description := "第一个任务", parameters := [] },
          { name := (c.secondJob).getD ("tdms-stock-boot-slave-rights-collection"),
            description := "第二个任务", parameters := [] } ] := by
      rw [hg]; simp [backCompatJobs, hc]
    refine ⟨by rw [hb]; simp, ?_, fun _ => hb, fun hnc => absurd hc hnc⟩
    intro j hj
    rw [hb] at hj
    simp only [List.mem_cons, List.not_mem_nil, or_false] at hj
    rcases hj with rfl | rfl <;> rfl
  · have hb : get_jobs_list c =
        [ { name := (c.firstJob).getD ("tdms-stock-boot"),
            description := "第一个任务", parameters := [] } ] := by
      rw [hg]; simp [backCompatJobs, hc]
    refine ⟨by rw [hb]; simp, ?_, fun hc2 => absurd hc2 hc, fun _ => hb⟩
    intro j hj
    rw [hb] at hj
    simp only [List.mem_cons, List.not_mem_nil, or_false] at hj
    subst hj
    rfl

/-- Configuration with no jobs array and no first_job / second_job keys. -/
def c9Cfg : JobsConfig := { jobs := none, firstJob := none, secondJob := none }

theorem c9_witness :
    get_jobs_list c9Cfg ≠ [] ∧
    (∀ j ∈ get_jobs_list c9Cfg, j.parameters = []) ∧
    (((c9Cfg.secondJob).getD ("tdms-stock-boot-slave-rights-collection") ≠ "" ∧
        (c9Cfg.secondJob).getD ("tdms-stock-boot-slave-rights-collection") ≠
          (c9Cfg.firstJob).getD ("tdms-stock-boot")) →
      get_jobs_list c9Cfg =
        [ { name := (c9Cfg.firstJob).getD ("tdms-stock-boot"),
            description := "第一个任务", parameters := [] },
          { name := (c9Cfg.secondJob).getD ("tdms-stock-boot-slave-rights-collection"),
            description := "第二个任务", parameters := [] } ]) ∧
    (¬((c9Cfg.secondJob).getD ("tdms-stock-boot-slave-rights-collection") ≠ "" ∧
        (c9Cfg.secondJob).getD ("tdms-stock-boot-slave-rights-collection") ≠
          (c9Cfg.firstJob).getD ("tdms-stock-boot")) →
      get_jobs_list c9Cfg =
        [ { name := (c9Cfg.firstJob).getD ("tdms-stock-boot"),
            description := "第一个任务", parameters := [] } ]) :=
  c9_jobs_list_backcompat c9Cfg (Or.inl rfl)

/-! ### Workflow orchestrator lemmas -/

theorem runJobs_true_all_ok (env : WorkflowEnv) (ep : Bool) :
    ∀ l : List JobItem, ∀ i : Nat, ∀ st : WfState,
      (runJobs env ep l i st).1 = true →
      ∀ j, i ≤ j → j < i + l.length → env.trigger j ≠ none ∧ env.wait j = true := by
  intro l
  induction l with
  | nil =>
    intro i st _ j h1 h2
    simp only [List.length_nil, Nat.add_zero] at h2
    omega
  | cons jb rest ih =>
    intro i st h j h1 h2
    simp only [runJobs] at h
    rcases htr : env.trigger i with _ | bn <;> simp only [htr] at h
    · simp at h
    · by_cases hw : env.wait i = true
      · rw [if_pos hw] at h
        have hj : i = j ∨ i < j := Nat.eq_or_lt_of_le h1
        by_cases hc : 0 < rest.length ∧ i = 0 ∧ ep = true
        · rw [if_pos hc] at h
          by_cases hp : env.poll = true
          · rw [if_pos hp] at h
            rcases hj with heq | hlt
            · subst heq; exact ⟨by simp [htr], hw⟩
            · exact ih (i + 1) _ h j hlt
                (by simp only [List.length_cons] at h2; omega)
          · rw [if_neg hp] at h; simp at h
        · rw [if_neg hc] at h
          rcases hj with heq | hlt
          · subst heq; exact ⟨by simp [htr], hw⟩
          · exact ih (i + 1) _ h j hlt
              (by simp only [List.length_cons] at h2; omega)
      · rw [if_neg hw] at h; simp at h

theorem runJobs_all_ok (env : WorkflowEnv) (ep : Bool)
    (hpoll : ep = true → env.poll = true) :
    ∀ l : List JobItem, ∀ i : Nat, ∀ st : WfState,
      (∀ j, i ≤ j → j < i + l.length → env.trigger j ≠ none ∧ env.wait j = true) →
      (runJobs env ep l i st).1 = true ∧
      (runJobs env ep l i st).2.triggered = st.triggered ++ List.range' i l.length := by
  intro l
  induction l with
  | nil => intro i st _; simp [runJobs, List.range']
  | cons jb rest ih =>
    intro i st hok
    obtain ⟨htr, hw⟩ := hok i (le_refl i) (by simp only [List.length_cons]; omega)
    obtain ⟨bn, hbn⟩ := Option.ne_none_iff_exists'.mp htr
    have hsub : ∀ j, i + 1 ≤ j → j < i + 1 + rest.length →
        env.trigger j ≠ none ∧ env.wait j = true := by
      intro j ha hb
      exact hok j (by omega) (by simp only [List.length_cons]; omega)
    have hrange : List.range' i ((jb :: rest).length) = i :: List.range' (i + 1) rest.length := by
      simp [List.range'_succ]
    simp only [runJobs, hbn]
    rw [if_pos hw]
    by_cases hc : 0 < rest.length ∧ i = 0 ∧ ep = true
    · rw [if_pos hc, if_pos (hpoll hc.2.2)]
      obtain ⟨h1, h2⟩ := ih (i + 1)
        (recordPoll (clearHandle (setHandle (recordTrigger st i) jb.name bn)) i) hsub
      refine ⟨h1, ?_⟩
      rw [h2, hrange]
      simp [recordPoll, clearHandle, setHandle, recordTrigger]
    · rw [if_neg hc]
      obtain ⟨h1, h2⟩ := ih (i + 1)
        (clearHandle (setHandle (recordTrigger st i) jb.name bn)) hsub
      refine ⟨h1, ?_⟩
      rw [h2, hrange]
      simp [clearHandle, setHandle, recordTrigger]

theorem runJobs_true_handle_clear (env : WorkflowEnv) (ep : Bool) :
    ∀ l : List JobItem, ∀ i : Nat, ∀ st : WfState,
      st.currentJob = none → st.currentBuildNumber = none →
      (runJobs env ep l i st).1 = true →
      (runJobs env ep l i st).2.currentJob = none ∧
      (runJobs env ep l i st).2.currentBuildNumber = none := by
  intro l
  induction l with
  | nil => intro i st h1 h2 _; exact ⟨h1, h2⟩
  | cons jb rest ih =>
    intro i st h1 h2 h
    simp only [runJobs] at h ⊢
    rcases htr : env.trigger i with _ | bn <;> simp only [htr] at h ⊢
    · simp at h
    · by_cases hw : env.wait i = true
      · rw [if_pos hw] at h ⊢
        by_cases hc : 0 < rest.length ∧ i = 0 ∧ ep = true
        · rw [if_pos hc] at h ⊢
          by_cases hp : env.poll = true
          · rw [if_pos hp] at h ⊢
            exact ih (i + 1) _ (by simp [recordPoll, clearHandle, setHandle, recordTrigger])
              (by simp [recordPoll, clearHandle, setHandle, recordTrigger]) h
          · rw [if_neg hp] at h; simp at h
        · rw [if_neg hc] at h ⊢
          exact ih (i + 1) _ (by simp [clearHandle, setHandle, recordTrigger])
            (by simp [clearHandle, setHandle, recordTrigger]) h
      · rw [if_neg hw] at h; simp at h

theorem runJobs_triggered_le (env : WorkflowEnv) (ep : Bool) (k : Nat)
    (hk : env.trigger k = none ∨ env.wait k = false) :
    ∀ l : List JobItem, ∀ i : Nat, ∀ st : WfState, i ≤ k →
      ∀ x ∈ (runJobs env ep l i st).2.triggered, x ∈ st.triggered ∨ x ≤ k := by
  intro l
  induction l with
  | nil => intro i st _ x hx; exact Or.inl hx
  | cons jb rest ih =>
    intro i st hik x hx
    simp only [runJobs] at hx
    rcases htr : env.trigger i with _ | bn <;> simp only [htr] at hx
    · simp only [recordTrigger] at hx
      rcases List.mem_append.mp hx with h | h
      · exact Or.inl h
      · right; simp at h; omega
    · by_cases hw : env.wait i = true
      · rw [if_pos hw] at hx
        have hik2 : i < k := by
          rcases Nat.eq_or_lt_of_le hik with heq | hlt
          · exfalso
            subst heq
            rcases hk with h | h
            · rw [htr] at h; exact Option.noConfusion h
            · rw [h] at hw; exact Bool.noConfusion hw
          · exact hlt
        by_cases hc : 0 < rest.length ∧ i = 0 ∧ ep = true
        · rw [if_pos hc] at hx
          by_cases hp : env.poll = true
          · rw [if_pos hp] at hx
            rcases ih (i + 1) _ (by omega) x hx with hmem | hle
            · simp only [recordPoll, clearHandle, setHandle, recordTrigger] at hmem
              rcases List.mem_append.mp hmem with h | h
              · exact Or.inl h
              · right; simp at h; omega
            · exact Or.inr hle
          · rw [if_neg hp] at hx
            simp only [recordPoll, clearHandle, setHandle, recordTrigger] at hx
            rcases List.mem_append.mp hx with h | h
            · exact Or.inl h
            · right; simp at h; omega
        · rw [if_neg hc] at hx
          rcases ih (i + 1) _ (by omega) x hx with hmem | hle
          · simp only [clearHandle, setHandle, recordTrigger] at hmem
            rcases List.mem_append.mp hmem with h | h
            · exact Or.inl h
            · right; simp at h; omega
          · exact Or.inr hle
      · rw [if_neg hw] at hx
        simp only [setHandle, recordTrigger] at hx
        rcases List.mem_append.mp hx with h | h
        · exact Or.inl h
        · right; simp at h; omega

theorem runJobs_wait_failure (env : WorkflowEnv) (ep : Bool) (k : Nat) (bn : Int)
    (jb : JobItem) (htr : env.trigger k = some bn) (hw : env.wait k = false) :
    ∀ l : List JobItem, ∀ i : Nat, ∀ st : WfState, i ≤ k → l[k - i]? = some jb →
      (∀ j, i ≤ j → j < k → env.trigger j ≠ none ∧ env.wait j = true) →
      (ep = true → i = 0 → 0 < k → env.poll = true) →
      (runJobs env ep l i st).1 = false ∧
      (runJobs env ep l i st).2.currentJob = some jb.name ∧
      (runJobs env ep l i st).2.currentBuildNumber = some bn := by
  intro l
  induction l with
  | nil => intro i st _ hjb _ _; simp at hjb
  | cons jb0 rest ih =>
    intro i st hik hjb hpre hpoll
    rcases Nat.eq_or_lt_of_le hik with heq | hlt
    · subst heq
      rw [Nat.sub_self] at hjb
      simp only [List.getElem?_cons_zero, Option.some.injEq] at hjb
      subst hjb
      simp only [runJobs, htr]
      rw [if_neg (by simp [hw])]
      exact ⟨rfl, by simp [setHandle, recordTrigger], by simp [setHandle, recordTrigger]⟩
    · obtain ⟨ht, hwj⟩ := hpre i (le_refl i) hlt
      obtain ⟨bi, hbi⟩ := Option.ne_none_iff_exists'.mp ht
      have hjb2 : rest[k - (i + 1)]? = some jb := by
        have he : k - i = (k - (i + 1)) + 1 := by omega
        rw [he] at hjb
        rw [List.getElem?_cons_succ] at hjb
        exact hjb
      have hpre2 : ∀ j, i + 1 ≤ j → j < k → env.trigger j ≠ none ∧ env.wait j = true :=
        fun j ha hb => hpre j (by omega) hb
      have hpoll2 : ep = true → i + 1 = 0 → 0 < k → env.poll = true :=
        fun _ h0 => absurd h0 (by omega)
      simp only [runJobs, hbi]
      rw [if_pos hwj]
      by_cases hc : 0 < rest.length ∧ i = 0 ∧ ep = true
      · rw [if_pos hc, if_pos (hpoll hc.2.2 hc.2.1 (by omega))]
        exact ih (i + 1) _ (by omega) hjb2 hpre2 hpoll2
      · rw [if_neg hc]
        exact ih (i + 1) _ (by omega) hjb2 hpre2 hpoll2

theorem runJobs_polls_mem (env : WorkflowEnv) (ep : Bool) :
    ∀ l : List JobItem, ∀ i : Nat, ∀ st : WfState,
      ∀ x ∈ (runJobs env ep l i st).2.polls,
        x ∈ st.polls ∨ (x = 0 ∧ i = 0 ∧ ep = true ∧ 2 ≤ l.length) := by
  intro l
  induction l with
  | nil => intro i st x hx; exact Or.inl hx
  | cons jb rest ih =>
    intro i st x hx
    simp only [runJobs] at hx
    rcases htr : env.trigger i with _ | bn <;> simp only [htr] at hx
    · exact Or.inl hx
    · by_cases hw : env.wait i = true
      · rw [if_pos hw] at hx
        by_cases hc : 0 < rest.length ∧ i = 0 ∧ ep = true
        · have hlen : 2 ≤ (jb :: rest).length := by
            simp only [List.length_cons]; omega
          by_cases hp : env.poll = true
          · rw [if_pos hc, if_pos hp] at hx
            rcases ih (i + 1) _ x hx with hmem | hbad
            · simp only [recordPoll, clearHandle, setHandle, recordTrigger] at hmem
              rcases List.mem_append.mp hmem with h | h
              · exact Or.inl h
              · right
                simp at h
                exact ⟨by omega, hc.2.1, hc.2.2, hlen⟩
            · exact absurd hbad.2.1 (by omega)
          · rw [if_pos hc, if_neg hp] at hx
            simp only [recordPoll, clearHandle, setHandle, recordTrigger] at hx
            rcases List.mem_append.mp hx with h | h
            · exact Or.inl h
            · right
              simp at h
              exact ⟨by omega, hc.2.1, hc.2.2, hlen⟩
        · rw [if_neg hc] at hx
          rcases ih (i + 1) _ x hx with hmem | hbad
          · exact Or.inl hmem
          · exact absurd hbad.2.1 (by omega)
      · rw [if_neg hw] at hx
        exact Or.inl hx

/-! ### Claims about the orchestrator -/

/-- Run with a single job whose trigger succeeds with build number 7 and
whose completion wait fails. -/
def c1Env : WorkflowEnv :=
  { trigger := fun _ => some 7, wait := fun _ => false, poll := true }

def oneJob : List JobItem :=
  [ { name := "jobA", description := "jobA", parameters := [] } ]

/-- Counterexample to claim C1 as stated: after a successful trigger
followed by a failed completion wait, the tracked build handle is NOT
clear — run_build_workflow returns with both fields still set, because
lines 586-587 return before the clearing at lines 590-591. -/
theorem c1_counterexample :
    ¬ ((run_build_workflow c1Env false oneJob).2.currentJob = none ∧
       (run_build_workflow c1Env false oneJob).2.currentBuildNumber = none) := by
  decide

/-- Claim C1, amended: the handle is clear before the first trigger
(initial state) and after a run that returns overall success; it is set
after a successful trigger and before the completion wait, as exhibited by
the failure case: when the completion wait of job k fails (all earlier
jobs having succeeded), the workflow returns failure with the handle still
set to job k and its build number.  Hence after a trigger-then-wait
sequence the handle is clear iff the wait reported success. -/
theorem c1_amended_handle_lifecycle (env : WorkflowEnv) (ep : Bool) (jobs : List JobItem) :
    (initWfState.currentJob = none ∧ initWfState.currentBuildNumber = none) ∧
    ((run_build_workflow env ep jobs).1 = true →
      (run_build_workflow env ep jobs).2.currentJob = none ∧
      (run_build_workflow env ep jobs).2.currentBuildNumber = none) ∧
    (∀ k : Nat, ∀ bn : Int, ∀ jb : JobItem, jobs[k]? = some jb →
      (∀ j, j < k → env.trigger j ≠ none ∧ env.wait j = true) →
      (ep = true → 0 < k → env.poll = true) →
      env.trigger k = some bn → env.wait k = false →
      (run_build_workflow env ep jobs).1 = false ∧
      (run_build_workflow env ep jobs).2.currentJob = some jb.name ∧
      (run_build_workflow env ep jobs).2.currentBuildNumber = some bn) := by
  refine ⟨⟨rfl, rfl⟩, ?_, ?_⟩
  · intro h
    cases jobs with
    | nil => simp [run_build_workflow] at h
    | cons j rest =>
      exact runJobs_true_handle_clear env ep (j :: rest) 0 initWfState rfl rfl h
  · intro k bn jb hjb hpre hpoll htr hw
    cases jobs with
    | nil => simp at hjb
    | cons j rest =>
      exact runJobs_wait_failure env ep k bn jb htr hw (j :: rest) 0 initWfState
        (Nat.zero_le k) (by simpa using hjb) (fun j2 _ hb => hpre j2 hb)
        (fun he _ hk => hpoll he hk)

theorem c1_witness :
    (run_build_workflow c1Env false oneJob).1 = false ∧
    (run_build_workflow c1Env false oneJob).2.currentJob = some ("jobA") ∧
    (run_build_workflow c1Env false oneJob).2.currentBuildNumber = some 7 :=
  (c1_amended_handle_lifecycle c1Env false oneJob).2.2 0 7
    { name := "jobA", description := "jobA", parameters := [] }
    rfl (fun j hj => absurd hj (Nat.not_lt_zero j))
    (fun h _ => absurd h (by simp)) rfl rfl

/-- Run with two jobs, polling enabled, every trigger and completion
succeeding, but the external poll failing. -/
def c2Env : WorkflowEnv :=
  { trigger := fun _ => some 3, wait := fun _ => true, poll := false }

def twoJobs : List JobItem :=
  [ { name := "jobA", description := "jobA", parameters := [] },
    { name := "jobB", description := "jobB", parameters := [] } ]

/-- Counterexample to claim C2 as stated: with external polling enabled
and the poll failing, every trigger and completion succeeds and yet
run_build_workflow returns false and job 1 is never triggered. -/
theorem c2_counterexample :
    c2Env.trigger 0 = some 3 ∧ c2Env.wait 0 = true ∧
    c2Env.trigger 1 = some 3 ∧ c2Env.wait 1 = true ∧
    (run_build_workflow c2Env true twoJobs).1 = false ∧
    (run_build_workflow c2Env true twoJobs).2.triggered = [0] := by
  decide

/-- Claim C2, amended: a trigger failure or completion failure at job k
yields overall failure with no job of index above k ever triggered; and
when every trigger and completion succeeds AND external polling is
disabled or the external poll succeeds, every job is triggered exactly
once, in list order, with overall success. -/
theorem c2_amended_sequencing (env : WorkflowEnv) (ep : Bool) (jobs : List JobItem) :
    (∀ k, k < jobs.length → (env.trigger k = none ∨ env.wait k = false) →
      (run_build_workflow env ep jobs).1 = false ∧
      (∀ x ∈ (run_build_workflow env ep jobs).2.triggered, x ≤ k)) ∧
    (0 < jobs.length →
      (∀ j, j < jobs.length → env.trigger j ≠ none ∧ env.wait j = true) →
      (ep = false ∨ env.poll = true) →
      (run_build_workflow env ep jobs).1 = true ∧
      (run_build_workflow env ep jobs).2.triggered = List.range jobs.length) := by
  constructor
  · intro k hk hfail
    cases jobs with
    | nil => simp at hk
    | cons j rest =>
      constructor
      · cases hres : (run_build_workflow env ep (j :: rest)).1 with
        | false => rfl
        | true =>
          have hall := runJobs_true_all_ok env ep (j :: rest) 0 initWfState hres k
            (Nat.zero_le k) (by simpa using hk)
          rcases hfail with h | h
          · exact absurd h hall.1
          · rw [hall.2] at h; exact Bool.noConfusion h
      · intro x hx
        rcases runJobs_triggered_le env ep k hfail (j :: rest) 0 initWfState
            (Nat.zero_le k) x hx with h | h
        · simp [initWfState] at h
        · exact h
  · intro hlen hok hpoll
    have hpoll2 : ep = true → env.poll = true := by
      intro hep
      rcases hpoll with h | h
      · rw [hep] at h; exact Bool.noConfusion h
      · exact h
    cases jobs with
    | nil => simp at hlen
    | cons j rest =>
      obtain ⟨h1, h2⟩ := runJobs_all_ok env ep hpoll2 (j :: rest) 0 initWfState
        (fun j2 _ hb => hok j2 (by simpa using hb))
      refine ⟨h1, ?_⟩
      show (runJobs env ep (j :: rest) 0 initWfState).2.triggered = List.range (j :: rest).length
      rw [h2]
      simp [initWfState, List.range_eq_range']

/-- Environment where every trigger and completion succeeds and the
external poll also succeeds. -/
def allOkEnv : WorkflowEnv :=
  { trigger := fun _ => some 3, wait := fun _ => true, poll := true }

theorem c2_witness :
    (run_build_workflow allOkEnv false twoJobs).1 = true ∧
    (run_build_workflow allOkEnv false twoJobs).2.triggered = List.range twoJobs.length :=
  (c2_amended_sequencing allOkEnv false twoJobs).2 (by decide)
    (fun j hj => ⟨by simp [allOkEnv], rfl⟩) (Or.inl rfl)

theorem runJobs_poll_fail_step (env : WorkflowEnv) (ep : Bool) (bn : Int)
    (j0 j1 : JobItem) (rest2 : List JobItem) (st : WfState)
    (htr : env.trigger 0 = some bn) (hw : env.wait 0 = true)
    (hep : ep = true) (hpf : env.poll = false) :
    runJobs env ep (j0 :: j1 :: rest2) 0 st =
      (false, recordPoll (clearHandle (setHandle (recordTrigger st 0) j0.name bn)) 0) := by
  simp [runJobs, htr, hw, hep, hpf]

/-- Claim C7: poll_interface is invoked only after job 0 (every recorded
poll index is 0), only when polling is enabled and a next job exists; and
when it is invoked and fails, the workflow returns overall failure with
only job 0 ever triggered. -/
theorem c7_polling_gate (env : WorkflowEnv) (ep : Bool) (jobs : List JobItem) :
    (∀ x ∈ (run_build_workflow env ep jobs).2.polls, x = 0) ∧
    ((run_build_workflow env ep jobs).2.polls ≠ [] → ep = true ∧ 2 ≤ jobs.length) ∧
    (∀ bn : Int, ep = true → env.poll = false → env.trigger 0 = some bn →
      env.wait 0 = true → 2 ≤ jobs.length →
      (run_build_workflow env ep jobs).1 = false ∧
      (run_build_workflow env ep jobs).2.triggered = [0] ∧
      (run_build_workflow env ep jobs).2.polls = [0]) := by
  refine ⟨?_, ?_, ?_⟩
  · intro x hx
    cases jobs with
    | nil => simp [run_build_workflow, initWfState] at hx
    | cons j rest =>
      rcases runJobs_polls_mem env ep (j :: rest) 0 initWfState x hx with h | h
      · simp [initWfState] at h
      · exact h.1
  · intro hne
    cases jobs with
    | nil => simp [run_build_workflow, initWfState] at hne
    | cons j rest =>
      obtain ⟨x, hx⟩ := List.exists_mem_of_ne_nil _ hne
      rcases runJobs_polls_mem env ep (j :: rest) 0 initWfState x hx with h | h
      · simp [initWfState] at h
      · exact ⟨h.2.2.1, h.2.2.2⟩
  · intro bn hep hpf htr hw hlen
    cases jobs with
    | nil => simp at hlen
    | cons j0 rest =>
      cases rest with
      | nil => simp at hlen
      | cons j1 rest2 =>
        have hstep := runJobs_poll_fail_step env ep bn j0 j1 rest2 initWfState htr hw hep hpf
        refine ⟨?_, ?_, ?_⟩
        · show (runJobs env ep (j0 :: j1 :: rest2) 0 initWfState).1 = false
          rw [hstep]
        · show (runJobs env ep (j0 :: j1 :: rest2) 0 initWfState).2.triggered = [0]
          rw [hstep]
          simp [recordPoll, clearHandle, setHandle, recordTrigger, initWfState]
        · show (runJobs env ep (j0 :: j1 :: rest2) 0 initWfState).2.polls = [0]
          rw [hstep]
          simp [recordPoll, clearHandle, setHandle, recordTrigger, initWfState]

/-- Run with two jobs, polling enabled, job 0 succeeding and the external
poll failing. -/
def c7Env : WorkflowEnv :=
  { trigger := fun _ => some 4, wait := fun _ => true, poll := false }

theorem c7_witness :
    (run_build_workflow c7Env true twoJobs).1 = false ∧
    (run_build_workflow c7Env true twoJobs).2.triggered = [0] ∧
    (run_build_workflow c7Env true twoJobs).2.polls = [0] :=
  (c7_polling_gate c7Env true twoJobs).2.2 4 rfl rfl rfl rfl (by decide)

end Jenkins
